import Mathlib

/-!
Shallow embedding of the order-creation / stock-reservation workflow of the
e-commerce backend (order controller, cart controller, payment controller,
and the Order/Cart mongoose models).  JS numbers are modelled as exact
rationals, mongo documents as Lean structures, and the product collection as
an association list keyed by product id.  Each controller/model function is
translated as a pure function; persistence is explicit state passing.
-/

namespace Ecom

/-- Order status enumeration (`orderSchema.status` enum). -/
inductive OrderStatus
  | pending
  | confirmed
  | processing
  | shipped
  | delivered
  | cancelled
  | refunded
deriving DecidableEq, Repr

/-- Payment status enumeration (`paymentInfoSchema.status` enum). -/
inductive PaymentStatus
  | pending
  | completed
  | failed
  | refunded
  | cancelled
deriving DecidableEq, Repr

/-- A product document: the fields read by the order/cart workflow
(`name`, `price`, `stock`, `isActive`).  Stock is an integer because the
mongo `$inc` update can in principle drive it below zero. -/
structure Product where
  name : String
  price : ℚ
  stock : ℤ
  isActive : Bool
deriving DecidableEq, Repr

/-- The product collection: association list keyed by product id. -/
abbrev ProductDB := List (Nat × Product)

/-- `Product.findById`: first entry with the given id. -/
def findProduct (db : ProductDB) (pid : Nat) : Option Product :=
  (db.find? (fun e => e.1 == pid)).map Prod.snd

/-- `Product.findByIdAndUpdate(pid, { $inc: { stock: d } })`: increment the
stock of the (unique) document with the given id.  Only the first matching
entry is updated, mirroring the by-id document update. -/
def incStock : ProductDB → Nat → ℤ → ProductDB
  | [], _, _ => []
  | e :: rest, pid, d =>
    if e.1 = pid then (e.1, { e.2 with stock := e.2.stock + d }) :: rest
    else e :: incStock rest pid d

/-- A catalog price update (admin product update path); touches only the
price of the matching product document. -/
def setPrice : ProductDB → Nat → ℚ → ProductDB
  | [], _, _ => []
  | e :: rest, pid, p =>
    if e.1 = pid then (e.1, { e.2 with price := p }) :: rest
    else e :: setPrice rest pid p

/-- `Math.round` on a rational: floor of `q + 1/2`, matching the JS
semantics for both positive and negative arguments. -/
def jsRound (q : ℚ) : ℤ := ⌊q + 1 / 2⌋

/-- `Math.round(q * 100) / 100`: round to 2 decimal places. -/
def round2 (q : ℚ) : ℚ := (jsRound (q * 100) : ℚ) / 100

/-- One line item of an order (`orderItemSchema`). -/
structure OrderItem where
  product : Nat
  productName : String
  quantity : Nat
  price : ℚ
  total : ℚ
deriving DecidableEq, Repr

/-- One requested item of a `POST /api/orders` body: a product id and a
quantity (the validation middleware coerces quantity to an integer ≥ 1). -/
structure ReqItem where
  product : Nat
  quantity : Nat
deriving DecidableEq, Repr

/-- Business-error taxonomy raised by the embedded controllers
(`ValidationError`, `NotFoundError`, `InsufficientStockError`). -/
inductive OrderError
  | validation (msg : String)
  | notFound (what : String)
  | insufficientStock (productName : String) (available : ℤ) (requested : Nat)
deriving DecidableEq, Repr

/-- Payment sub-record of an order (`paymentInfoSchema`).  Timestamps carry
the value passed by the caller (`paidAt`) or a set/unset flag
(`refundedAt`). -/
structure PaymentInfo where
  method : String
  transactionId : Option String
  paymentIntentId : Option String
  status : PaymentStatus
  amount : ℚ
  paidAt : Option Nat
  refundedAt : Bool
  refundAmount : ℚ
deriving DecidableEq, Repr

/-- One entry of the status history log (timestamp omitted: the model has
no clock; the status and note fully determine the claims below). -/
structure StatusEntry where
  status : OrderStatus
  note : String
deriving DecidableEq, Repr

/-- An order document (`orderSchema`), restricted to the fields the
workflow reads or writes.  `deliveredAt`/`cancelledAt` are set/unset
flags. -/
structure Order where
  items : List OrderItem
  subtotal : ℚ
  tax : ℚ
  shippingCost : ℚ
  discount : ℚ
  totalAmount : ℚ
  status : OrderStatus
  paymentInfo : PaymentInfo
  statusHistory : List StatusEntry
  cancellationReason : String
  deliveredAt : Bool
  cancelledAt : Bool
deriving DecidableEq, Repr

/-- Printable status name, used to build history notes. -/
def statusName : OrderStatus → String
  | .pending => "pending"
  | .confirmed => "confirmed"
  | .processing => "processing"
  | .shipped => "shipped"
  | .delivered => "delivered"
  | .cancelled => "cancelled"
  | .refunded => "refunded"

/-- The validation loop of `createOrder` (order controller): for each
requested item, look the product up, require it to exist, be active, and
have stock at least the requested quantity; build the frozen order line
item from the product document. -/
def buildItems (db : ProductDB) : List ReqItem → Except OrderError (List OrderItem)
  | [] => .ok []
  | i :: rest =>
    match findProduct db i.product with
    | none => .error (.notFound "Product")
    | some p =>
      if p.isActive = false then .error (.validation "Product is not available")
      else if p.stock < (i.quantity : ℤ) then
        .error (.insufficientStock p.name p.stock i.quantity)
      else
        match buildItems db rest with
        | .error e => .error e
        | .ok l =>
          .ok ({ product := i.product, productName := p.name, quantity := i.quantity,
                 price := p.price, total := p.price * (i.quantity : ℚ) } :: l)

/-- `POST /api/orders` (`createOrder` in the order controller): validate
every item, compute subtotal / tax / shipping / discount / total, build the
order document with status `pending` and initial history entry, then
decrement the stock of each requested item.  Returns the order and the
updated product collection, or the error thrown. -/
def createOrder (db : ProductDB) (items : List ReqItem) (method : String) :
    Except OrderError (Order × ProductDB) :=
  if items.isEmpty then .error (.validation "Order must contain at least one item")
  else
    match buildItems db items with
    | .error e => .error e
    | .ok orderItems =>
      let subtotal := (orderItems.map OrderItem.total).sum
      let tax := subtotal * (1 / 10)
      let shippingCost : ℚ := if subtotal > 500 then 0 else 50
      let discount : ℚ := 0
      let totalAmount := subtotal + tax + shippingCost - discount
      let order : Order :=
        { items := orderItems
          subtotal := subtotal
          tax := tax
          shippingCost := shippingCost
          discount := discount
          totalAmount := totalAmount
          status := .pending
          paymentInfo :=
            { method := method
              transactionId := none
              paymentIntentId := none
              status := .pending
              amount := totalAmount
              paidAt := none
              refundedAt := false
              refundAmount := 0 }
          statusHistory := [{ status := .pending, note := "Order created" }]
          cancellationReason := ""
          deliveredAt := false
          cancelledAt := false }
      let db2 := items.foldl (fun d i => incStock d i.product (-(i.quantity : ℤ))) db
      .ok (order, db2)

/-- `orderSchema.methods.updateStatus`: no-op when the new status equals the
current one; otherwise set the status, append a history entry (with a
default note naming both statuses), and set the delivered/cancelled
timestamp flags when entering those states. -/
def Order.updateStatus (o : Order) (newStatus : OrderStatus) (note : String) : Order :=
  if o.status = newStatus then o
  else
    { o with
      status := newStatus
      statusHistory := o.statusHistory ++
        [{ status := newStatus
           note := if note = "" then
             "Status changed from " ++ statusName o.status ++ " to " ++ statusName newStatus
           else note }]
      deliveredAt := if newStatus = .delivered then true else o.deliveredAt
      cancelledAt := if newStatus = .cancelled then true else o.cancelledAt }

/-- The forbidden-transition table of `updateOrderStatus` (order
controller): `invalidTransitions[status]`, with an empty list for statuses
absent from the JS object. -/
def invalidTransitions : OrderStatus → List OrderStatus
  | .delivered => [.pending, .confirmed, .processing]
  | .cancelled => [.delivered, .shipped]
  | .refunded => [.pending, .confirmed, .processing]
  | _ => []

/-- `PUT /api/orders/:id/status` (`updateOrderStatus` in the order
controller): reject the change when the requested status is on the
forbidden list for the current status, otherwise delegate to
`Order.updateStatus`.  (The enum membership check is subsumed by the
`OrderStatus` type.) -/
def updateOrderStatus (o : Order) (newStatus : OrderStatus) (note : String) :
    Except OrderError Order :=
  if (invalidTransitions o.status).contains newStatus then
    .error (.validation ("Cannot change status from " ++ statusName o.status ++
      " to " ++ statusName newStatus))
  else .ok (o.updateStatus newStatus note)

/-- `orderSchema.methods.updatePaymentStatus`: set the payment status,
record the transaction id when given, and — when completing a payment whose
`paidAt` is still unset — record `paidAt` and auto-confirm a `pending`
order with note "Payment completed". -/
def Order.updatePaymentStatus (o : Order) (st : PaymentStatus)
    (transactionId : Option String) (paidAt : Option Nat) : Order :=
  let o1 := { o with paymentInfo := { o.paymentInfo with status := st } }
  let o2 :=
    match transactionId with
    | some t => { o1 with paymentInfo := { o1.paymentInfo with transactionId := some t } }
    | none => o1
  if st = .completed then
    match o2.paymentInfo.paidAt with
    | some _ => o2
    | none =>
      let o3 := { o2 with paymentInfo := { o2.paymentInfo with paidAt := some (paidAt.getD 0) } }
      if o3.status = .pending then o3.updateStatus .confirmed "Payment completed"
      else o3
  else o2

/-- `handleStripePaymentSuccess` / `handleRazorpayPaymentSuccess` (payment
controller), applied to the order looked up by its provider reference: a
no-op when the payment is already `completed`, otherwise complete it via
`updatePaymentStatus` with the provider transaction id and timestamp. -/
def confirmPayment (o : Order) (ref : String) (t : Nat) : Order :=
  if o.paymentInfo.status ≠ .completed then
    o.updatePaymentStatus .completed (some ref) (some t)
  else o

/-- `orderSchema.methods.cancelOrder`: reject terminal statuses
`delivered`/`cancelled`/`refunded`; otherwise set status `cancelled`,
record the reason, append a history entry, and — when the payment was
`completed` — mark it `refunded` with a full refund amount. -/
def Order.cancelOrder (o : Order) (reason : String) : Except OrderError Order :=
  if o.status = .delivered ∨ o.status = .cancelled ∨ o.status = .refunded then
    .error (.validation ("Cannot cancel order with status: " ++ statusName o.status))
  else
    let o1 :=
      { o with
        status := .cancelled
        cancelledAt := true
        cancellationReason := reason
        statusHistory := o.statusHistory ++
          [{ status := .cancelled, note := if reason = "" then "Order cancelled" else reason }] }
    if o1.paymentInfo.status = .completed then
      let pi2 : PaymentInfo :=
        { o1.paymentInfo with
          status := .refunded
          refundedAt := true
          refundAmount := o1.paymentInfo.amount }
      .ok { o1 with paymentInfo := pi2 }
    else .ok o1

/-- `PUT /api/orders/:id/cancel` (`cancelOrder` in the order controller):
reject statuses on the non-cancellable list (which also contains
`shipped`), run the model `cancelOrder`, then restore the stock of every
line item with `$inc`. -/
def cancelOrderCtrl (db : ProductDB) (o : Order) (reason : String) :
    Except OrderError (Order × ProductDB) :=
  if o.status = .delivered ∨ o.status = .cancelled ∨ o.status = .refunded ∨
      o.status = .shipped then
    .error (.validation ("Cannot cancel order with status: " ++ statusName o.status))
  else
    match o.cancelOrder reason with
    | .error e => .error e
    | .ok o2 =>
      let db2 := o.items.foldl (fun d it => incStock d it.product (it.quantity : ℤ)) db
      .ok (o2, db2)

/-- `orderSchema.methods.calculateTotals`: recompute the subtotal from the
stored line items and the grand total with rounding to 2 decimal places.
(This model method exists on the schema but is never invoked on the
order-creation path.) -/
def Order.calculateTotals (o : Order) : Order :=
  let s := (o.items.map OrderItem.total).sum
  let t := s + o.tax + o.shippingCost - o.discount
  { o with subtotal := s, totalAmount := round2 t }

/-- The persistent state touched by the workflow: the product collection
and the list of persisted orders (carts are handled separately below). -/
structure World where
  db : ProductDB
  orders : List Order
deriving DecidableEq, Repr

/-- The requests that mutate product stock or order state. -/
inductive Event
  | create (items : List ReqItem) (method : String)
  | cancel (idx : Nat) (reason : String)
  | priceChange (pid : Nat) (price : ℚ)
deriving DecidableEq, Repr

/-- One request against the store: a successful `createOrder` persists the
order and the decremented stock; a successful cancellation replaces the
order and restores stock; a catalog price change touches only the product
collection; a failed request leaves the state unchanged (the thrown error
aborts the handler before any write). -/
def stepEvent (w : World) : Event → World
  | .create items m =>
    match createOrder w.db items m with
    | .ok (o, db2) => { db := db2, orders := w.orders ++ [o] }
    | .error _ => w
  | .cancel idx reason =>
    match w.orders[idx]? with
    | some o =>
      match cancelOrderCtrl w.db o reason with
      | .ok (o2, db2) => { db := db2, orders := w.orders.set idx o2 }
      | .error _ => w
    | none => w
  | .priceChange pid p => { w with db := setPrice w.db pid p }

/-- All stocks of the product collection are non-negative. -/
def stocksNonneg (db : ProductDB) : Prop := ∀ e ∈ db, 0 ≤ e.2.stock

instance (db : ProductDB) : Decidable (stocksNonneg db) :=
  inferInstanceAs (Decidable (∀ e ∈ db, 0 ≤ e.2.stock))

/-- Product of a request item exists and is active (`Bool` form of the
first two checks of the `createOrder` validation loop). -/
def productOk (db : ProductDB) (pid : Nat) : Bool :=
  match findProduct db pid with
  | some p => p.isActive
  | none => false

/-- Current stock of a product, `0` when absent. -/
def availableStock (db : ProductDB) (pid : Nat) : ℤ :=
  match findProduct db pid with
  | some p => p.stock
  | none => 0

/-- A create event whose item list references no product twice (the shape
every cart-derived request has, since carts merge duplicate products). -/
def Event.wellFormed : Event → Prop
  | .create items _ => (items.map ReqItem.product).Nodup
  | _ => True

instance (ev : Event) : Decidable ev.wellFormed := by
  cases ev <;> simp [Event.wellFormed] <;> infer_instance

/-- One line item of a cart (`cartItemSchema`): product id, quantity, and
the price snapshot captured when the item was added. -/
structure CartItem where
  product : Nat
  quantity : Nat
  price : ℚ
deriving DecidableEq, Repr

/-- A cart document (`cartSchema`), restricted to the fields of the
workflow; the stored totals are recomputed by the pre-save hook. -/
structure Cart where
  items : List CartItem
  totalAmount : ℚ
  totalItems : Nat
deriving DecidableEq, Repr

/-- `cartSchema.methods.calculateTotals` (also run by the pre-save hook):
total item count and total amount, the latter rounded to 2 decimal
places. -/
def Cart.recompute (c : Cart) : Cart :=
  { c with
    totalItems := (c.items.map CartItem.quantity).sum
    totalAmount := round2 ((c.items.map (fun it => it.price * (it.quantity : ℚ))).sum) }

/-- `cartSchema.methods.addItem`: merge the quantity into an existing line
item for the same product (refreshing its price snapshot), or append a new
line item; then recompute totals (save). -/
def Cart.addItem (c : Cart) (pid : Nat) (qty : Nat) (price : ℚ) : Cart :=
  let items2 :=
    if c.items.any (fun it => it.product == pid) then
      c.items.map (fun it =>
        if it.product == pid then { it with quantity := it.quantity + qty, price := price }
        else it)
    else c.items ++ [{ product := pid, quantity := qty, price := price }]
  Cart.recompute { c with items := items2 }

/-- `POST /api/cart/add`: the `validateAddToCart` middleware bounds the
request quantity to 1..99, then the cart controller checks product
existence, active flag, stock against the request quantity, and stock
against the merged quantity, before delegating to `Cart.addItem`. -/
def addToCart (db : ProductDB) (c : Cart) (pid : Nat) (qty : Nat) :
    Except OrderError Cart :=
  if ¬ (1 ≤ qty ∧ qty ≤ 99) then
    .error (.validation "Quantity must be between 1 and 99")
  else
    match findProduct db pid with
    | none => .error (.notFound "Product")
    | some p =>
      if p.isActive = false then .error (.validation "Product is not available")
      else if p.stock < (qty : ℤ) then .error (.insufficientStock p.name p.stock qty)
      else
        let totalRequested : Nat :=
          match c.items.find? (fun it => it.product == pid) with
          | some it => it.quantity + qty
          | none => qty
        if p.stock < Int.ofNat totalRequested then
          .error (.insufficientStock p.name p.stock totalRequested)
        else .ok (c.addItem pid qty p.price)

/-- A cart line item is flagged by `validateItems`: its product is missing,
inactive, or has stock below the item quantity. -/
def itemProblem (db : ProductDB) (it : CartItem) : Bool :=
  match findProduct db it.product with
  | none => true
  | some p =>
    if p.isActive = false then true
    else if p.stock < (it.quantity : ℤ) then true
    else false

/-- The loop of `cartSchema.methods.validateItems`: collect the product ids
of flagged items (in order) and refresh the price snapshot of every
unflagged item to the current product price. -/
def validateLoop (db : ProductDB) : List CartItem → List Nat × List CartItem
  | [] => ([], [])
  | it :: rest =>
    let r := validateLoop db rest
    match findProduct db it.product with
    | none => (it.product :: r.1, it :: r.2)
    | some p =>
      if p.isActive = false then (it.product :: r.1, it :: r.2)
      else if p.stock < (it.quantity : ℤ) then (it.product :: r.1, it :: r.2)
      else (r.1, { it with price := p.price } :: r.2)

/-- `cartSchema.methods.validateItems`: run the loop; when no item was
flagged, persist the refreshed cart (recomputing totals); otherwise the
refreshed items stay in memory for the caller.  Returns the flagged
product ids and the resulting cart. -/
def validateItemsRun (db : ProductDB) (c : Cart) : List Nat × Cart :=
  let r := validateLoop db c.items
  let c2 := { c with items := r.2 }
  (r.1, if r.1.isEmpty then c2.recompute else c2)

/-- The payload of a `GET /api/cart` response: the returned line items and
the product ids of the warnings list (absent warnings = empty list). -/
structure CartResponse where
  items : List CartItem
  warnings : List Nat
deriving DecidableEq, Repr

/-- `GET /api/cart` (`getCart` in the cart controller): validate the cart
items; when warnings arise, drop every item whose product id was flagged,
persist the pruned cart (the pre-save hook recomputes totals), and return
it together with the warnings.  Returns the response and the persisted
cart state. -/
def getCart (db : ProductDB) (c : Cart) : CartResponse × Cart :=
  let r := validateItemsRun db c
  if r.1.isEmpty then ({ items := r.2.items, warnings := [] }, r.2)
  else
    let c2 := Cart.recompute
      { r.2 with items := r.2.items.filter (fun it => !(r.1.contains it.product)) }
    ({ items := c2.items, warnings := r.1 }, c2)

/-- Whether an `Except` result is a success. -/
def exceptOk {ε α : Type} : Except ε α → Bool
  | .ok _ => true
  | .error _ => false

/-! Concrete fixtures used by the counterexamples and witnesses. -/

/-- One-product catalog with integral price, for the pricing scenario of
the spec (price 50, stock 10). -/
def dbPricing : ProductDB :=
  [(1, { name := "P1", price := 50, stock := 10, isActive := true })]

/-- Request for two units of the pricing product. -/
def reqPricing : List ReqItem := [{ product := 1, quantity := 2 }]

/-- The order produced by `createOrder dbPricing reqPricing "cod"`. -/
def orderPricing : Order :=
  { items := [{ product := 1, productName := "P1", quantity := 2, price := 50, total := 100 }]
    subtotal := 100
    tax := 10
    shippingCost := 50
    discount := 0
    totalAmount := 160
    status := .pending
    paymentInfo :=
      { method := "cod"
        transactionId := none
        paymentIntentId := none
        status := .pending
        amount := 160
        paidAt := none
        refundedAt := false
        refundAmount := 0 }
    statusHistory := [{ status := .pending, note := "Order created" }]
    cancellationReason := ""
    deliveredAt := false
    cancelledAt := false }

/-- The catalog after the pricing order decremented stock. -/
def dbPricing2 : ProductDB :=
  [(1, { name := "P1", price := 50, stock := 8, isActive := true })]

/-- Catalog whose product price has three significant decimals after the
10% tax is applied (price 0.15). -/
def dbFraction : ProductDB :=
  [(1, { name := "A", price := 3 / 20, stock := 10, isActive := true })]

/-- Request for one unit of the fractional-price product. -/
def reqFraction : List ReqItem := [{ product := 1, quantity := 1 }]

/-- World with a single product of stock 5. -/
def wStock5 : World :=
  { db := [(1, { name := "A", price := 10, stock := 5, isActive := true })], orders := [] }

/-- A create request listing the same product twice, 3 units each. -/
def evDup : Event :=
  .create [{ product := 1, quantity := 3 }, { product := 1, quantity := 3 }] "cod"

/-- A benign request sequence: create 2 units, then cancel that order. -/
def evSeq : List Event :=
  [.create [{ product := 1, quantity := 2 }] "cod", .cancel 0 "changed my mind"]

/-- Two-product world: product 1 has ample stock, product 2 has stock 1. -/
def wTwo : World :=
  { db := [(1, { name := "A", price := 10, stock := 5, isActive := true }),
           (2, { name := "B", price := 4, stock := 1, isActive := true })]
    orders := [] }

/-- Request whose second item exceeds the stock of product 2. -/
def reqOver : List ReqItem :=
  [{ product := 1, quantity := 2 }, { product := 2, quantity := 5 }]

/-- A base order used to build concrete order fixtures. -/
def baseOrder : Order :=
  { items := [{ product := 1, productName := "A", quantity := 2, price := 10, total := 20 }]
    subtotal := 20
    tax := 2
    shippingCost := 50
    discount := 0
    totalAmount := 72
    status := .pending
    paymentInfo :=
      { method := "stripe"
        transactionId := none
        paymentIntentId := none
        status := .pending
        amount := 72
        paidAt := none
        refundedAt := false
        refundAmount := 0 }
    statusHistory := [{ status := .pending, note := "Order created" }]
    cancellationReason := ""
    deliveredAt := false
    cancelledAt := false }

/-- An order already shipped. -/
def ordShipped : Order := { baseOrder with status := .shipped }

/-- An order in processing whose payment has completed. -/
def ordProcessing : Order :=
  { baseOrder with
    status := .processing
    paymentInfo := { baseOrder.paymentInfo with status := .completed, paidAt := some 5 } }

/-- A delivered order. -/
def ordDelivered : Order := { baseOrder with status := .delivered, deliveredAt := true }

/-- Catalog used with the cancel fixtures. -/
def dbStock : ProductDB := [(1, { name := "A", price := 10, stock := 5, isActive := true })]

/-- The order produced by cancelling `ordProcessing`. -/
def ordProcessing2 : Order :=
  { ordProcessing with
    status := .cancelled
    cancelledAt := true
    cancellationReason := "req"
    statusHistory := ordProcessing.statusHistory ++ [{ status := .cancelled, note := "req" }]
    paymentInfo :=
      { ordProcessing.paymentInfo with
        status := .refunded
        refundedAt := true
        refundAmount := ordProcessing.paymentInfo.amount } }

/-- `dbStock` after restoring the two units of `ordProcessing`. -/
def dbStock2 : ProductDB := [(1, { name := "A", price := 10, stock := 7, isActive := true })]

/-- The order produced by pushing `ordDelivered` to `shipped` with note
"n". -/
def ordDeliveredShipped : Order :=
  { ordDelivered with
    status := .shipped
    statusHistory := ordDelivered.statusHistory ++ [{ status := .shipped, note := "n" }] }

/-- A user cart holding a stale price snapshot of 10 for product 1. -/
def cartSnap : Cart :=
  { items := [{ product := 1, quantity := 1, price := 10 }], totalAmount := 10, totalItems := 1 }

/-- Catalog in which product 1 now costs 20. -/
def dbCatalog : ProductDB :=
  [(1, { name := "P", price := 20, stock := 5, isActive := true })]

/-- The request a checkout of `cartSnap` sends: its product ids and
quantities. -/
def reqOfCart (c : Cart) : List ReqItem :=
  c.items.map (fun it => { product := it.product, quantity := it.quantity })

/-- A cart already holding 99 units of product 1. -/
def cart99 : Cart :=
  { items := [{ product := 1, quantity := 99, price := 10 }], totalAmount := 990, totalItems := 99 }

/-- Catalog with 300 units of product 1 in stock. -/
def db300 : ProductDB := [(1, { name := "A", price := 10, stock := 300, isActive := true })]

/-- The empty cart. -/
def emptyCart : Cart := { items := [], totalAmount := 0, totalItems := 0 }

/-- Catalog for the cart-validation scenario: product 1 is out of stock,
product 2 is available. -/
def dbMix : ProductDB :=
  [(1, { name := "A", price := 10, stock := 0, isActive := true }),
   (2, { name := "B", price := 5, stock := 10, isActive := true })]

/-- Cart holding one item of each product of `dbMix`. -/
def cartMix : Cart :=
  { items := [{ product := 1, quantity := 2, price := 10 }, { product := 2, quantity := 1, price := 4 }]
    totalAmount := 24
    totalItems := 3 }

theorem findProduct_cons (e : Nat × Product) (rest : ProductDB) (pid : Nat) :
    findProduct (e :: rest) pid = if e.1 = pid then some e.2 else findProduct rest pid := by
  by_cases he : e.1 = pid
  · simp [findProduct, List.find?, he]
  · have hb : (e.1 == pid) = false := beq_eq_false_iff_ne.mpr he
    simp [findProduct, List.find?, hb, he]

theorem incStock_cons (e : Nat × Product) (rest : ProductDB) (pid : Nat) (d : ℤ) :
    incStock (e :: rest) pid d =
      if e.1 = pid then (e.1, { e.2 with stock := e.2.stock + d }) :: rest
      else e :: incStock rest pid d := rfl

theorem findProduct_incStock_ne (db : ProductDB) (pid pid2 : Nat) (d : ℤ)
    (h : pid2 ≠ pid) : findProduct (incStock db pid d) pid2 = findProduct db pid2 := by
  induction db with
  | nil => rfl
  | cons e rest ih =>
    rw [incStock_cons]
    by_cases he : e.1 = pid
    · rw [if_pos he, findProduct_cons, findProduct_cons]
      have hne : ¬ e.1 = pid2 := fun hc => h (hc.symm.trans he)
      rw [if_neg hne, if_neg hne]
    · rw [if_neg he, findProduct_cons, findProduct_cons, ih]

theorem stocksNonneg_incStock (db : ProductDB) (pid : Nat) (d : ℤ)
    (h : stocksNonneg db)
    (hd : ∀ p, findProduct db pid = some p → 0 ≤ p.stock + d) :
    stocksNonneg (incStock db pid d) := by
  induction db with
  | nil => intro x hx; cases hx
  | cons e rest ih =>
    have hrest : stocksNonneg rest := fun y hy => h y (List.mem_cons_of_mem e hy)
    rw [incStock_cons]
    by_cases he : e.1 = pid
    · rw [if_pos he]
      intro x hx
      rcases List.mem_cons.mp hx with rfl | hx
      · have hf : findProduct (e :: rest) pid = some e.2 := by
          rw [findProduct_cons, if_pos he]
        exact hd e.2 hf
      · exact hrest x hx
    · rw [if_neg he]
      intro x hx
      rcases List.mem_cons.mp hx with rfl | hx
      · exact h x (List.mem_cons_self x rest)
      · have hfd : ∀ p, findProduct rest pid = some p → 0 ≤ p.stock + d := by
          intro p hp
          apply hd
          rw [findProduct_cons, if_neg he]
          exact hp
        exact ih hrest hfd x hx



/-- Relation between a requested item and the order line item built from it. -/
def itemBuilt (db : ProductDB) (i : ReqItem) (oi : OrderItem) : Prop :=
  ∃ p, findProduct db i.product = some p ∧ p.isActive = true ∧ (i.quantity : ℤ) ≤ p.stock
    ∧ oi = { product := i.product, productName := p.name, quantity := i.quantity,
             price := p.price, total := p.price * (i.quantity : ℚ) }

theorem forall2_mem_left {A B : Type} {R : A → B → Prop} {l1 : List A} {l2 : List B}
    (h : List.Forall₂ R l1 l2) {a : A} (ha : a ∈ l1) : ∃ b ∈ l2, R a b := by
  induction h with
  | nil => cases ha
  | cons hr _ ih =>
    rcases List.mem_cons.mp ha with rfl | ha2
    · exact ⟨_, List.mem_cons_self _ _, hr⟩
    · obtain ⟨b, hb, hrb⟩ := ih ha2
      exact ⟨b, List.mem_cons_of_mem _ hb, hrb⟩

theorem buildItems_ok (db : ProductDB) (items : List ReqItem) (l : List OrderItem)
    (h : buildItems db items = .ok l) : List.Forall₂ (itemBuilt db) items l := by
  induction items generalizing l with
  | nil =>
    simp only [buildItems] at h
    cases h
    exact List.Forall₂.nil
  | cons i rest ih =>
    simp only [buildItems] at h
    cases hf : findProduct db i.product with
    | none => simp only [hf] at h; cases h
    | some p =>
      simp only [hf] at h
      by_cases ha : p.isActive = false
      · rw [if_pos ha] at h; cases h
      · rw [if_neg ha] at h
        by_cases hs : p.stock < (i.quantity : ℤ)
        · rw [if_pos hs] at h; cases h
        · rw [if_neg hs] at h
          cases hb : buildItems db rest with
          | error e => simp only [hb] at h; cases h
          | ok l2 =>
            simp only [hb] at h
            cases h
            refine List.Forall₂.cons ?_ (ih l2 hb)
            exact ⟨p, hf, by simpa using ha, le_of_not_lt hs, rfl⟩

theorem buildItems_avail (db : ProductDB) (items : List ReqItem) (l : List OrderItem)
    (h : buildItems db items = .ok l) :
    ∀ j ∈ items, ∃ p, findProduct db j.product = some p ∧ (j.quantity : ℤ) ≤ p.stock := by
  intro j hj
  obtain ⟨oi, _, hr⟩ := forall2_mem_left (buildItems_ok db items l h) hj
  obtain ⟨p, hp, _, hle, _⟩ := hr
  exact ⟨p, hp, hle⟩

theorem buildItems_insufficient (db : ProductDB) (items : List ReqItem)
    (hall : ∀ j ∈ items, productOk db j.product = true)
    (hsome : ∃ j ∈ items, availableStock db j.product < (j.quantity : ℤ)) :
    ∃ n a q, buildItems db items = .error (.insufficientStock n a q) := by
  induction items with
  | nil => obtain ⟨j, hj, _⟩ := hsome; cases hj
  | cons i rest ih =>
    have hok := hall i (List.mem_cons_self i rest)
    cases hf : findProduct db i.product with
    | none =>
      simp only [productOk, hf] at hok
      exact absurd hok Bool.false_ne_true
    | some p =>
      have hpa : p.isActive = true := by simpa [productOk, hf] using hok
      simp only [buildItems, hf, hpa]
      by_cases hs : p.stock < (i.quantity : ℤ)
      · rw [if_pos hs]
        exact ⟨p.name, p.stock, i.quantity, rfl⟩
      · rw [if_neg hs]
        obtain ⟨j, hj, hlt⟩ := hsome
        rcases List.mem_cons.mp hj with rfl | hj2
        · have : availableStock db j.product = p.stock := by simp [availableStock, hf]
          rw [this] at hlt
          exact absurd hlt hs
        · have hall2 : ∀ k ∈ rest, productOk db k.product = true :=
            fun k hk => hall k (List.mem_cons_of_mem i hk)
          obtain ⟨n, a, q, hb⟩ := ih hall2 ⟨j, hj2, hlt⟩
          rw [hb]
          exact ⟨n, a, q, rfl⟩

theorem createOrder_ok (db : ProductDB) (items : List ReqItem) (m : String)
    (o : Order) (db2 : ProductDB) (h : createOrder db items m = .ok (o, db2)) :
    buildItems db items = .ok o.items
    ∧ o.subtotal = (o.items.map OrderItem.total).sum
    ∧ o.tax = o.subtotal * (1 / 10)
    ∧ o.shippingCost = (if o.subtotal > 500 then (0 : ℚ) else 50)
    ∧ o.discount = 0
    ∧ o.totalAmount = o.subtotal + o.tax + o.shippingCost - o.discount
    ∧ o.status = .pending
    ∧ o.paymentInfo.status = .pending
    ∧ o.paymentInfo.amount = o.totalAmount
    ∧ o.paymentInfo.paidAt = none
    ∧ o.statusHistory = [{ status := .pending, note := "Order created" }]
    ∧ db2 = items.foldl (fun d i => incStock d i.product (-(i.quantity : ℤ))) db := by
  simp only [createOrder] at h
  by_cases he : items.isEmpty
  · rw [if_pos he] at h; cases h
  · rw [if_neg he] at h
    cases hb : buildItems db items with
    | error e => simp only [hb] at h; cases h
    | ok l =>
      simp only [hb] at h
      cases h
      exact ⟨rfl, rfl, rfl, rfl, rfl, rfl, rfl, rfl, rfl, rfl, rfl, rfl⟩

theorem cancelOrderCtrl_ok (db : ProductDB) (o : Order) (reason : String)
    (o2 : Order) (db2 : ProductDB) (h : cancelOrderCtrl db o reason = .ok (o2, db2)) :
    o2.status = .cancelled
    ∧ o2.items = o.items
    ∧ o2.statusHistory = o.statusHistory ++
        [{ status := .cancelled, note := if reason = "" then "Order cancelled" else reason }]
    ∧ db2 = o.items.foldl (fun d it => incStock d it.product (it.quantity : ℤ)) db
    ∧ (o.paymentInfo.status = .completed →
        o2.paymentInfo.status = .refunded ∧ o2.paymentInfo.refundAmount = o.paymentInfo.amount
          ∧ o2.paymentInfo.refundedAt = true)
    ∧ (o.paymentInfo.status ≠ .completed → o2.paymentInfo = o.paymentInfo) := by
  simp only [cancelOrderCtrl] at h
  by_cases hblock : o.status = .delivered ∨ o.status = .cancelled ∨ o.status = .refunded ∨
      o.status = .shipped
  · rw [if_pos hblock] at h; cases h
  · rw [if_neg hblock] at h
    have h3 : ¬ (o.status = .delivered ∨ o.status = .cancelled ∨ o.status = .refunded) := by
      intro hc
      exact hblock (by tauto)
    simp only [Order.cancelOrder, if_neg h3] at h
    by_cases hpay : o.paymentInfo.status = .completed
    · rw [if_pos hpay] at h
      simp only at h
      cases h
      exact ⟨rfl, rfl, rfl, rfl, fun _ => ⟨rfl, rfl, rfl⟩, fun hc => absurd hpay hc⟩
    · rw [if_neg hpay] at h
      simp only at h
      cases h
      exact ⟨rfl, rfl, rfl, rfl, fun hc => absurd hc hpay, fun _ => rfl⟩

theorem findProduct_stock_nonneg (db : ProductDB) (pid : Nat) (p : Product)
    (h : stocksNonneg db) (hp : findProduct db pid = some p) : 0 ≤ p.stock := by
  simp only [findProduct, Option.map_eq_some'] at hp
  obtain ⟨e, he, hep⟩ := hp
  have := h e (List.mem_of_find?_eq_some he)
  rw [hep] at this
  exact this

theorem foldDec_nonneg (items : List ReqItem) (db : ProductDB)
    (hnd : (items.map ReqItem.product).Nodup)
    (h : stocksNonneg db)
    (havail : ∀ j ∈ items, ∃ p, findProduct db j.product = some p ∧ (j.quantity : ℤ) ≤ p.stock) :
    stocksNonneg (items.foldl (fun d i => incStock d i.product (-(i.quantity : ℤ))) db) := by
  induction items generalizing db with
  | nil => simpa using h
  | cons i rest ih =>
    simp only [List.foldl_cons]
    obtain ⟨p, hp, hle⟩ := havail i (List.mem_cons_self i rest)
    rw [List.map_cons] at hnd
    have hnd0 := List.nodup_cons.mp hnd
    have h1 : stocksNonneg (incStock db i.product (-(i.quantity : ℤ))) := by
      apply stocksNonneg_incStock db i.product _ h
      intro q hq
      rw [hp] at hq
      cases hq
      omega
    refine ih _ hnd0.2 h1 ?_
    intro j hj
    have hne : j.product ≠ i.product := by
      intro hc
      exact hnd0.1 (hc ▸ List.mem_map_of_mem ReqItem.product hj)
    rw [findProduct_incStock_ne db i.product j.product _ hne]
    exact havail j (List.mem_cons_of_mem i hj)

theorem foldInc_nonneg (items : List OrderItem) (db : ProductDB)
    (h : stocksNonneg db) :
    stocksNonneg (items.foldl (fun d it => incStock d it.product (it.quantity : ℤ)) db) := by
  induction items generalizing db with
  | nil => simpa using h
  | cons i rest ih =>
    simp only [List.foldl_cons]
    apply ih
    apply stocksNonneg_incStock _ _ _ h
    intro p hp
    have := findProduct_stock_nonneg db i.product p h hp
    omega

theorem stocksNonneg_setPrice (db : ProductDB) (pid : Nat) (pr : ℚ)
    (h : stocksNonneg db) : stocksNonneg (setPrice db pid pr) := by
  induction db with
  | nil => intro x hx; cases hx
  | cons e rest ih =>
    have hrest : stocksNonneg rest := fun y hy => h y (List.mem_cons_of_mem e hy)
    simp only [setPrice]
    by_cases he : e.1 = pid
    · rw [if_pos he]
      intro x hx
      rcases List.mem_cons.mp hx with rfl | hx
      · exact h e (List.mem_cons_self e rest)
      · exact hrest x hx
    · rw [if_neg he]
      intro x hx
      rcases List.mem_cons.mp hx with rfl | hx
      · exact h x (List.mem_cons_self x rest)
      · exact ih hrest x hx

theorem step_nonneg (w : World) (ev : Event) (hwf : ev.wellFormed)
    (h : stocksNonneg w.db) : stocksNonneg ((stepEvent w ev).db) := by
  cases ev with
  | create items m =>
    cases hc : createOrder w.db items m with
    | error e => simp only [stepEvent, hc]; exact h
    | ok r =>
      obtain ⟨o, db2⟩ := r
      simp only [stepEvent, hc]
      obtain ⟨hb, -, -, -, -, -, -, -, -, -, -, hdb⟩ := createOrder_ok w.db items m o db2 hc
      rw [hdb]
      exact foldDec_nonneg items w.db (by simpa [Event.wellFormed] using hwf) h
        (buildItems_avail w.db items o.items hb)
  | cancel idx reason =>
    cases ho : w.orders[idx]? with
    | none => simp only [stepEvent, ho]; exact h
    | some o =>
      cases hc : cancelOrderCtrl w.db o reason with
      | error e => simp only [stepEvent, ho, hc]; exact h
      | ok r =>
        obtain ⟨o2, db2⟩ := r
        simp only [stepEvent, ho, hc]
        obtain ⟨-, -, -, hdb, -, -⟩ := cancelOrderCtrl_ok w.db o reason o2 db2 hc
        rw [hdb]
        exact foldInc_nonneg o.items w.db h
  | priceChange pid pr =>
    exact stocksNonneg_setPrice w.db pid pr h

theorem foldEvents_nonneg (evs : List Event) (w : World)
    (hwf : ∀ ev ∈ evs, ev.wellFormed) (h : stocksNonneg w.db) :
    stocksNonneg ((evs.foldl stepEvent w).db) := by
  induction evs generalizing w with
  | nil => simpa using h
  | cons ev rest ih =>
    simp only [List.foldl_cons]
    exact ih (stepEvent w ev) (fun e he => hwf e (List.mem_cons_of_mem ev he))
      (step_nonneg w ev (hwf ev (List.mem_cons_self ev rest)) h)

theorem forall2_mem_right {A B : Type} {R : A → B → Prop} {l1 : List A} {l2 : List B}
    (h : List.Forall₂ R l1 l2) {b : B} (hb : b ∈ l2) : ∃ a ∈ l1, R a b := by
  induction h with
  | nil => cases hb
  | cons hr _ ih =>
    rcases List.mem_cons.mp hb with rfl | hb2
    · exact ⟨_, List.mem_cons_self _ _, hr⟩
    · obtain ⟨a, ha, hra⟩ := ih hb2
      exact ⟨a, List.mem_cons_of_mem _ ha, hra⟩

theorem buildItems_item_total (db : ProductDB) (items : List ReqItem) (l : List OrderItem)
    (h : buildItems db items = .ok l) :
    ∀ oi ∈ l, oi.total = oi.price * (oi.quantity : ℚ) := by
  intro oi hoi
  obtain ⟨i, -, hr⟩ := forall2_mem_right (buildItems_ok db items l h) hoi
  obtain ⟨p, -, -, -, heq⟩ := hr
  rw [heq]

/-- Claim C1 counterexample: `createOrder` stores the grand total without
the claimed rounding to 2 decimal places.  With a unit price of 0.15, the
stored total is 50.165, while rounding the same sum (as the schema method
`calculateTotals` would) yields 50.17. -/
theorem claim1_rounding_counterexample :
    ((createOrder dbFraction reqFraction "cod").toOption.map (fun r => r.1.totalAmount))
      = some (10033 / 200)
    ∧ ((createOrder dbFraction reqFraction "cod").toOption.map
        (fun r => (r.1.calculateTotals).totalAmount)) = some (5017 / 100)
    ∧ ((10033 : ℚ) / 200) ≠ 5017 / 100 := by
  refine ⟨?_, ?_, by norm_num⟩
  · norm_num [createOrder, buildItems, findProduct, dbFraction, reqFraction, incStock,
      List.find?, Except.toOption]
  · norm_num [createOrder, buildItems, findProduct, dbFraction, reqFraction, incStock,
      List.find?, Except.toOption, Order.calculateTotals, round2, jsRound]

/-- Claim C1 (amended): for every order created by `createOrder`, the
stored grand total satisfies `totalAmount = subtotal + tax + shippingCost
- discount` exactly, with no rounding applied, where the subtotal is the
sum of quantity times unit price over the line items, the tax is 10% of
the subtotal, the shipping cost is 0 when the subtotal exceeds 500 and 50
otherwise, and the discount is 0. -/
theorem claim1_total_formula (db : ProductDB) (items : List ReqItem) (m : String)
    (o : Order) (db2 : ProductDB) (h : createOrder db items m = .ok (o, db2)) :
    o.subtotal = (o.items.map (fun it => it.price * (it.quantity : ℚ))).sum
    ∧ o.tax = o.subtotal * (1 / 10)
    ∧ o.shippingCost = (if o.subtotal > 500 then (0 : ℚ) else 50)
    ∧ o.discount = 0
    ∧ o.totalAmount = o.subtotal + o.tax + o.shippingCost - o.discount := by
  obtain ⟨hb, hsub, htax, hship, hdisc, htot, -, -, -, -, -, -⟩ :=
    createOrder_ok db items m o db2 h
  refine ⟨?_, htax, hship, hdisc, htot⟩
  rw [hsub]
  congr 1
  exact List.map_congr_left (buildItems_item_total db items o.items hb)

/-- Claim C1 witness: the amended total formula evaluated on the concrete
pricing scenario (price 50, quantity 2: subtotal 100, tax 10, shipping 50,
total 160). -/
theorem claim1_total_formula_witness :
    createOrder dbPricing reqPricing "cod" = .ok (orderPricing, dbPricing2)
    ∧ (orderPricing.subtotal
        = (orderPricing.items.map (fun it => it.price * (it.quantity : ℚ))).sum
      ∧ orderPricing.tax = orderPricing.subtotal * (1 / 10)
      ∧ orderPricing.shippingCost = (if orderPricing.subtotal > 500 then (0 : ℚ) else 50)
      ∧ orderPricing.discount = 0
      ∧ orderPricing.totalAmount = orderPricing.subtotal + orderPricing.tax
          + orderPricing.shippingCost - orderPricing.discount) :=
  ⟨by norm_num [createOrder, buildItems, findProduct, dbPricing, reqPricing, orderPricing,
      dbPricing2, incStock, List.find?],
   claim1_total_formula dbPricing reqPricing "cod" orderPricing dbPricing2
     (by norm_num [createOrder, buildItems, findProduct, dbPricing, reqPricing, orderPricing,
        dbPricing2, incStock, List.find?])⟩

theorem createOrder_propagates (db : ProductDB) (items : List ReqItem) (m : String)
    (e : OrderError) (hne : items.isEmpty = false) (hb : buildItems db items = .error e) :
    createOrder db items m = .error e := by
  simp only [createOrder, hne, Bool.false_eq_true, if_false, hb]

theorem insufficient_create_error (db : ProductDB) (items : List ReqItem) (m : String)
    (hall : ∀ j ∈ items, productOk db j.product = true)
    (hsome : ∃ j ∈ items, availableStock db j.product < (j.quantity : ℤ)) :
    ∃ n a q, createOrder db items m = .error (.insufficientStock n a q) := by
  obtain ⟨n, a, q, hb⟩ := buildItems_insufficient db items hall hsome
  have hne : items.isEmpty = false := by
    cases items with
    | nil => obtain ⟨j, hj, -⟩ := hsome; cases hj
    | cons i rest => rfl
  exact ⟨n, a, q, createOrder_propagates db items m _ hne hb⟩

/-- Claim C2 counterexample: starting from a non-negative stock of 5, a
single order creation whose item list names the same product twice (3 + 3
units) succeeds and drives the stock to -1.  Each per-item availability
check reads the unmutated collection, and the decrement loop only runs
after all checks passed. -/
theorem claim2_nonneg_counterexample :
    stocksNonneg wStock5.db
    ∧ ¬ stocksNonneg ((stepEvent wStock5 evDup).db) := by
  constructor
  · decide
  · decide

/-- Claim C2 (amended): provided every creation request lists each product
at most once (which holds for all cart-derived requests, since carts merge
duplicate products), any sequence of order creations, cancellations and
price changes keeps every product stock non-negative; moreover a failed
creation leaves the state unchanged, and a request whose items are all
active existing products with some quantity exceeding the available stock
fails with InsufficientStock. -/
theorem claim2_stock_nonneg (evs : List Event) (w : World)
    (hwf : ∀ ev ∈ evs, ev.wellFormed)
    (h0 : stocksNonneg w.db) :
    stocksNonneg ((evs.foldl stepEvent w).db)
    ∧ (∀ (w2 : World) (items : List ReqItem) (m : String),
        exceptOk (createOrder w2.db items m) = false →
        stepEvent w2 (.create items m) = w2)
    ∧ (∀ (db : ProductDB) (items : List ReqItem) (m : String),
        (∀ j ∈ items, productOk db j.product = true) →
        (∃ j ∈ items, availableStock db j.product < (j.quantity : ℤ)) →
        ∃ n a q, createOrder db items m = .error (.insufficientStock n a q)) := by
  refine ⟨foldEvents_nonneg evs w hwf h0, ?_, insufficient_create_error⟩
  intro w2 items m hfail
  cases hc : createOrder w2.db items m with
  | ok r => rw [hc] at hfail; cases hfail
  | error e => simp only [stepEvent, hc]

/-- Claim C2 witness: the non-negativity invariant evaluated after a
concrete create-then-cancel sequence from a stock of 5. -/
theorem claim2_stock_nonneg_witness :
    (∀ ev ∈ evSeq, ev.wellFormed) ∧ stocksNonneg wStock5.db
    ∧ stocksNonneg ((evSeq.foldl stepEvent wStock5).db) :=
  ⟨by decide, by decide, (claim2_stock_nonneg evSeq wStock5 (by decide) (by decide)).1⟩

/-- Claim C3: when every requested product exists and is active but some
item requests more than its available stock, `createOrder` fails with
`InsufficientStock` and the state is unchanged: no order is persisted and
no stock is decremented, because the whole request is validated before the
decrement loop runs. -/
theorem claim3_check_before_decrement (w : World) (items : List ReqItem) (m : String)
    (hall : ∀ j ∈ items, productOk w.db j.product = true)
    (hsome : ∃ j ∈ items, availableStock w.db j.product < (j.quantity : ℤ)) :
    (∃ n a q, createOrder w.db items m = .error (.insufficientStock n a q))
    ∧ stepEvent w (.create items m) = w := by
  obtain ⟨n, a, q, herr⟩ := insufficient_create_error w.db items m hall hsome
  refine ⟨⟨n, a, q, herr⟩, ?_⟩
  simp only [stepEvent, herr]

/-- Claim C3 witness: a two-item request whose second item exceeds the
stock of product 2 leaves the two-product world untouched. -/
theorem claim3_check_before_decrement_witness :
    (∀ j ∈ reqOver, productOk wTwo.db j.product = true)
    ∧ (∃ j ∈ reqOver, availableStock wTwo.db j.product < (j.quantity : ℤ))
    ∧ stepEvent wTwo (.create reqOver "cod") = wTwo :=
  ⟨by decide, by decide,
   (claim3_check_before_decrement wTwo reqOver "cod" (by decide) (by decide)).2⟩

/-- Claim C4 counterexample: a `shipped` order is neither delivered nor
cancelled nor refunded, yet cancellation fails: the cancel route also
blocks `shipped`. -/
theorem claim4_cancel_counterexample :
    ordShipped.status ≠ .delivered ∧ ordShipped.status ≠ .cancelled
    ∧ ordShipped.status ≠ .refunded
    ∧ cancelOrderCtrl dbStock ordShipped "r"
        = .error (.validation "Cannot cancel order with status: shipped") :=
  ⟨by decide, by decide, by decide, rfl⟩

/-- Claim C4 (amended): cancellation fails if and only if the order status
is `delivered`, `cancelled`, `refunded` or `shipped`; for every other
status it succeeds, setting status to `cancelled`, restoring each line
item quantity to its product stock, and — when the payment status was
`completed` — setting the payment status to `refunded` with refund amount
equal to the paid amount (otherwise the payment record is untouched). -/
theorem claim4_cancel_characterization (db : ProductDB) (o : Order) (reason : String) :
    (exceptOk (cancelOrderCtrl db o reason) = false ↔
      (o.status = .delivered ∨ o.status = .cancelled ∨ o.status = .refunded
        ∨ o.status = .shipped))
    ∧ (∀ (o2 : Order) (db2 : ProductDB), cancelOrderCtrl db o reason = .ok (o2, db2) →
        o2.status = .cancelled
        ∧ db2 = o.items.foldl (fun d it => incStock d it.product (it.quantity : ℤ)) db
        ∧ (o.paymentInfo.status = .completed →
            o2.paymentInfo.status = .refunded
            ∧ o2.paymentInfo.refundAmount = o.paymentInfo.amount)
        ∧ (o.paymentInfo.status ≠ .completed → o2.paymentInfo = o.paymentInfo)) := by
  constructor
  · by_cases hblock : o.status = .delivered ∨ o.status = .cancelled ∨ o.status = .refunded
        ∨ o.status = .shipped
    · simp only [cancelOrderCtrl, if_pos hblock, exceptOk]
      exact ⟨fun _ => hblock, fun _ => trivial⟩
    · have h3 : ¬ (o.status = .delivered ∨ o.status = .cancelled ∨ o.status = .refunded) := by
        intro hc
        exact hblock (by tauto)
      simp only [cancelOrderCtrl, if_neg hblock, Order.cancelOrder, if_neg h3]
      by_cases hpay : o.paymentInfo.status = .completed
      · rw [if_pos hpay]
        simp only [exceptOk]
        exact ⟨fun hc => absurd hc (by simp), fun hc => absurd hc hblock⟩
      · rw [if_neg hpay]
        simp only [exceptOk]
        exact ⟨fun hc => absurd hc (by simp), fun hc => absurd hc hblock⟩
  · intro o2 db2 h
    obtain ⟨h1, -, -, h4, h5, h6⟩ := cancelOrderCtrl_ok db o reason o2 db2 h
    exact ⟨h1, h4, fun hc => ⟨(h5 hc).1, (h5 hc).2.1⟩, h6⟩

/-- Claim C4 witness: cancelling the concrete processing order with
completed payment yields the cancelled order with refunded payment and the
restored stock. -/
theorem claim4_cancel_characterization_witness :
    cancelOrderCtrl dbStock ordProcessing "req" = .ok (ordProcessing2, dbStock2)
    ∧ ordProcessing2.status = .cancelled ∧ ordProcessing2.paymentInfo.status = .refunded :=
  ⟨rfl,
   ((claim4_cancel_characterization dbStock ordProcessing "req").2 ordProcessing2 dbStock2
      rfl).1,
   (((claim4_cancel_characterization dbStock ordProcessing "req").2 ordProcessing2 dbStock2
      rfl).2.2.1 rfl).1⟩

theorem confirmPayment_completed (o : Order) (ref : String) (t : Nat) :
    (confirmPayment o ref t).paymentInfo.status = .completed := by
  by_cases h : o.paymentInfo.status = .completed
  · simp [confirmPayment, h]
  · simp only [confirmPayment, if_pos (show o.paymentInfo.status ≠ .completed from h),
      Order.updatePaymentStatus]
    cases hpa : o.paymentInfo.paidAt with
    | some v => simp
    | none =>
      simp only [hpa]
      by_cases hp : o.status = .pending
      · simp [Order.updateStatus, hp]
      · simp [hp]

theorem confirmPayment_noop (o : Order) (ref : String) (t : Nat)
    (h : o.paymentInfo.status = .completed) : confirmPayment o ref t = o := by
  simp [confirmPayment, h]

/-- Claim C5: payment confirmation is idempotent.  A second confirmation
with the same provider reference leaves the order exactly as after the
first; the first confirmation (of an order whose payment is not completed
and has no recorded payment time) marks the payment completed, records the
payment time, and advances a `pending` order to `confirmed` with exactly
one history entry noted "Payment completed", while leaving the status and
history of a non-pending order untouched. -/
theorem claim5_confirm_idempotent (o : Order) (ref : String) (t u : Nat) :
    confirmPayment (confirmPayment o ref t) ref u = confirmPayment o ref t
    ∧ (o.paymentInfo.status ≠ .completed → o.paymentInfo.paidAt = none →
        (confirmPayment o ref t).paymentInfo.status = .completed
        ∧ (confirmPayment o ref t).paymentInfo.paidAt = some t
        ∧ (o.status = .pending →
            (confirmPayment o ref t).status = .confirmed
            ∧ (confirmPayment o ref t).statusHistory
                = o.statusHistory ++ [{ status := .confirmed, note := "Payment completed" }])
        ∧ (o.status ≠ .pending →
            (confirmPayment o ref t).status = o.status
            ∧ (confirmPayment o ref t).statusHistory = o.statusHistory)) := by
  refine ⟨confirmPayment_noop _ ref u (confirmPayment_completed o ref t), ?_⟩
  intro hnc hpa
  have hunfold : confirmPayment o ref t
      = (o.updatePaymentStatus .completed (some ref) (some t)) := by
    simp [confirmPayment, hnc]
  rw [hunfold]
  simp only [Order.updatePaymentStatus, hpa]
  by_cases hp : o.status = .pending
  · simp [Order.updateStatus, hp]
  · simp [hp]

/-- Claim C5 witness: the idempotence and first-call effects evaluated on
the concrete pending order with pending payment. -/
theorem claim5_confirm_idempotent_witness :
    baseOrder.paymentInfo.status ≠ .completed
    ∧ baseOrder.paymentInfo.paidAt = none
    ∧ baseOrder.status = .pending
    ∧ confirmPayment (confirmPayment baseOrder "tx" 7) "tx" 9 = confirmPayment baseOrder "tx" 7
    ∧ (confirmPayment baseOrder "tx" 7).status = .confirmed :=
  ⟨by decide, by decide, by decide,
   (claim5_confirm_idempotent baseOrder "tx" 7 9).1,
   (((claim5_confirm_idempotent baseOrder "tx" 7 9).2 (by decide) (by decide)).2.2.1
      (by decide)).1⟩

/-- Claim C6: every transition on the forbidden list — `delivered` to
pending/confirmed/processing, `cancelled` to shipped/delivered, `refunded`
to pending/confirmed/processing — is rejected, producing no updated order,
so the stored status and history are unchanged; in particular, after an
order reaches `delivered`, a request to set it to `pending` fails and the
status remains `delivered`. -/
theorem claim6_forbidden_transitions (o o2 : Order) (t : OrderStatus) (note n1 n2 : String) :
    (((o.status = .delivered ∧ (t = .pending ∨ t = .confirmed ∨ t = .processing))
      ∨ (o.status = .cancelled ∧ (t = .shipped ∨ t = .delivered))
      ∨ (o.status = .refunded ∧ (t = .pending ∨ t = .confirmed ∨ t = .processing))) →
      exceptOk (updateOrderStatus o t note) = false)
    ∧ (updateOrderStatus o .delivered n1 = .ok o2 →
        o2.status = .delivered ∧ exceptOk (updateOrderStatus o2 .pending n2) = false) := by
  constructor
  · intro h
    have hmem : t ∈ invalidTransitions o.status := by
      rcases h with ⟨hs, ht⟩ | ⟨hs, ht⟩ | ⟨hs, ht⟩
      · rw [hs]; rcases ht with rfl | rfl | rfl <;> decide
      · rw [hs]; rcases ht with rfl | rfl <;> decide
      · rw [hs]; rcases ht with rfl | rfl | rfl <;> decide
    simp [updateOrderStatus, hmem, exceptOk]
  · intro h
    by_cases hmem : OrderStatus.delivered ∈ invalidTransitions o.status
    · simp [updateOrderStatus, hmem] at h
    · have hct : ¬ (invalidTransitions o.status).contains OrderStatus.delivered = true := by
        simpa using hmem
      simp only [updateOrderStatus] at h
      rw [if_neg hct] at h
      cases h
      have hst : (o.updateStatus .delivered n1).status = .delivered := by
        by_cases hsame : o.status = .delivered
        · simp [Order.updateStatus, hsame]
        · simp [Order.updateStatus, hsame]
      refine ⟨hst, ?_⟩
      simp [updateOrderStatus, hst, invalidTransitions, exceptOk]

/-- Claim C6 witness: the delivered fixture rejects a `pending` request,
and setting `delivered` on the delivered order (a no-op success) followed
by a `pending` request fails with the status still `delivered`. -/
theorem claim6_forbidden_transitions_witness :
    exceptOk (updateOrderStatus ordDelivered .pending "n") = false
    ∧ updateOrderStatus ordDelivered .delivered "x" = .ok ordDelivered
    ∧ ordDelivered.status = .delivered
    ∧ exceptOk (updateOrderStatus ordDelivered .pending "m") = false :=
  ⟨(claim6_forbidden_transitions ordDelivered ordDelivered .pending "n" "x" "m").1
      (Or.inl ⟨rfl, Or.inl rfl⟩),
   rfl,
   ((claim6_forbidden_transitions ordDelivered ordDelivered .pending "n" "x" "m").2 rfl).1,
   ((claim6_forbidden_transitions ordDelivered ordDelivered .pending "n" "x" "m").2 rfl).2⟩

/-- Claim C7 counterexample: a terminal (`delivered`) order can still
change status — requesting `shipped` succeeds, because the forbidden list
for `delivered` contains only pending, confirmed and processing. -/
theorem claim7_terminal_counterexample :
    ordDelivered.status = .delivered
    ∧ updateOrderStatus ordDelivered .shipped "n" = .ok ordDeliveredShipped
    ∧ ordDeliveredShipped.status = .shipped :=
  ⟨rfl, rfl, rfl⟩

/-- Claim C7 (amended): from a terminal status (`delivered`, `cancelled`,
`refunded`), a request for a different status fails exactly when the
target is on that status's forbidden list; any other different status is
still accepted and changes the order's status, so terminal states are not
absorbing. -/
theorem claim7_terminal_characterization (o : Order) (t : OrderStatus) (note : String)
    (_hterm : o.status = .delivered ∨ o.status = .cancelled ∨ o.status = .refunded)
    (hne : t ≠ o.status) :
    (exceptOk (updateOrderStatus o t note) = false ↔ t ∈ invalidTransitions o.status)
    ∧ (t ∉ invalidTransitions o.status →
        ∃ o2, updateOrderStatus o t note = .ok o2 ∧ o2.status = t) := by
  by_cases hmem : t ∈ invalidTransitions o.status
  · constructor
    · simp [updateOrderStatus, exceptOk, hmem]
    · intro hc
      exact absurd hmem hc
  · constructor
    · simp [updateOrderStatus, exceptOk, hmem]
    · intro _
      refine ⟨o.updateStatus t note, by simp [updateOrderStatus, hmem], ?_⟩
      have hsame : ¬ o.status = t := fun hc => hne hc.symm
      simp [Order.updateStatus, hsame]

/-- Claim C7 witness: on the delivered fixture, `pending` (on the
forbidden list) is rejected while `shipped` (off the list) succeeds and
changes the status. -/
theorem claim7_terminal_characterization_witness :
    (ordDelivered.status = .delivered ∨ ordDelivered.status = .cancelled
      ∨ ordDelivered.status = .refunded)
    ∧ exceptOk (updateOrderStatus ordDelivered .pending "n") = false
    ∧ (∃ o2, updateOrderStatus ordDelivered .shipped "n" = .ok o2 ∧ o2.status = .shipped) :=
  ⟨Or.inl rfl,
   (claim7_terminal_characterization ordDelivered .pending "n" (Or.inl rfl) (by decide)).1.mpr
     (by decide),
   (claim7_terminal_characterization ordDelivered .shipped "n" (Or.inl rfl) (by decide)).2
     (by decide)⟩

/-- Claim C8 counterexample: the cart holds a price snapshot of 10 for
product 1, but the order created from the cart's product ids and
quantities stores the current catalog price 20 — the snapshot is not
used. -/
theorem claim8_snapshot_counterexample :
    cartSnap.items.map CartItem.price = [10]
    ∧ ((createOrder dbCatalog (reqOfCart cartSnap) "cod").toOption.map
        (fun r => r.1.items.map OrderItem.price)) = some [20]
    ∧ ((10 : ℚ) ≠ 20) := by
  refine ⟨by norm_num [cartSnap], ?_, by norm_num⟩
  norm_num [createOrder, buildItems, findProduct, dbCatalog, cartSnap, reqOfCart,
    incStock, List.find?, Except.toOption]

/-- Claim C8 (amended): an order's line items are a frozen copy of the
request's product ids and quantities, with the product name and the unit
price taken from the catalog at creation time (not from the cart's price
snapshot); a later catalog price change touches only the product
collection and leaves every stored order unchanged. -/
theorem claim8_frozen_items (db : ProductDB) (items : List ReqItem) (m : String)
    (o : Order) (db2 : ProductDB) (h : createOrder db items m = .ok (o, db2)) :
    List.Forall₂ (fun (i : ReqItem) (oi : OrderItem) =>
      ∃ p, findProduct db i.product = some p
        ∧ oi = { product := i.product, productName := p.name, quantity := i.quantity,
                 price := p.price, total := p.price * (i.quantity : ℚ) }) items o.items
    ∧ (∀ (w : World) (pid : Nat) (pr : ℚ),
        (stepEvent w (.priceChange pid pr)).orders = w.orders) := by
  refine ⟨?_, fun w pid pr => rfl⟩
  have hb := (createOrder_ok db items m o db2 h).1
  exact (buildItems_ok db items o.items hb).imp
    (fun i oi hr => by obtain ⟨p, hp, -, -, heq⟩ := hr; exact ⟨p, hp, heq⟩)

/-- Claim C8 witness: the frozen-copy relation evaluated on the pricing
fixture order. -/
theorem claim8_frozen_items_witness :
    createOrder dbPricing reqPricing "cod" = .ok (orderPricing, dbPricing2)
    ∧ List.Forall₂ (fun (i : ReqItem) (oi : OrderItem) =>
        ∃ p, findProduct dbPricing i.product = some p
          ∧ oi = { product := i.product, productName := p.name, quantity := i.quantity,
                   price := p.price, total := p.price * (i.quantity : ℚ) })
        reqPricing orderPricing.items :=
  ⟨by norm_num [createOrder, buildItems, findProduct, dbPricing, reqPricing, orderPricing,
      dbPricing2, incStock, List.find?],
   (claim8_frozen_items dbPricing reqPricing "cod" orderPricing dbPricing2
      (by norm_num [createOrder, buildItems, findProduct, dbPricing, reqPricing, orderPricing,
        dbPricing2, incStock, List.find?])).1⟩

/-- Claim C9 counterexample: merging 99 more units of product 1 into a
cart already holding 99 yields a line item of 198 units — far above the
per-product cap of 99 — yet the addition succeeds, because only the
request quantity is validated, not the post-merge quantity. -/
theorem claim9_cap_counterexample :
    cart99.items.map CartItem.quantity = [99]
    ∧ addToCart db300 cart99 1 99
        = .ok { items := [{ product := 1, quantity := 198, price := 10 }]
                totalAmount := 1980
                totalItems := 198 }
    ∧ 99 + 99 > 99 := by
  refine ⟨by norm_num [cart99], ?_, by norm_num⟩
  norm_num [addToCart, Cart.addItem, Cart.recompute, findProduct, db300, cart99,
    List.find?, round2, jsRound]

/-- Claim C9 (amended): the quantity of a single add-to-cart request is
bounded to 1..99 by the validation middleware — a request outside the
bound (such as quantity 100 on an empty cart) fails with the quantity
validation error and produces no updated cart — but the quantity after
merging with an existing line item is not re-checked against the cap. -/
theorem claim9_request_cap (db : ProductDB) (c : Cart) (pid qty : Nat)
    (h : ¬ (1 ≤ qty ∧ qty ≤ 99)) :
    addToCart db c pid qty = .error (.validation "Quantity must be between 1 and 99") := by
  simp only [addToCart, if_pos h]

/-- Claim C9 witness: adding quantity 100 of product 1 to the empty cart
fails with the quantity validation error. -/
theorem claim9_request_cap_witness :
    ¬ (1 ≤ 100 ∧ 100 ≤ 99)
    ∧ addToCart db300 emptyCart 1 100
        = .error (.validation "Quantity must be between 1 and 99") :=
  ⟨by decide, claim9_request_cap db300 emptyCart 1 100 (by decide)⟩

theorem itemProblem_price (db : ProductDB) (it : CartItem) (pr : ℚ) :
    itemProblem db { it with price := pr } = itemProblem db it := rfl

theorem validateLoop_out_mem (db : ProductDB) (items : List CartItem) :
    ∀ it2 ∈ (validateLoop db items).2, itemProblem db it2 = true →
      it2.product ∈ (validateLoop db items).1 := by
  induction items with
  | nil => intro it2 h2; cases h2
  | cons it rest ih =>
    intro it2 h2 hprob
    cases hf : findProduct db it.product with
    | none =>
      simp only [validateLoop, hf] at h2 ⊢
      rcases List.mem_cons.mp h2 with rfl | h3
      · exact List.mem_cons_self _ _
      · exact List.mem_cons_of_mem _ (ih it2 h3 hprob)
    | some p =>
      by_cases ha : p.isActive = false
      · simp only [validateLoop, hf, if_pos ha] at h2 ⊢
        rcases List.mem_cons.mp h2 with rfl | h3
        · exact List.mem_cons_self _ _
        · exact List.mem_cons_of_mem _ (ih it2 h3 hprob)
      · by_cases hs : p.stock < (it.quantity : ℤ)
        · simp only [validateLoop, hf, if_neg ha, if_pos hs] at h2 ⊢
          rcases List.mem_cons.mp h2 with rfl | h3
          · exact List.mem_cons_self _ _
          · exact List.mem_cons_of_mem _ (ih it2 h3 hprob)
        · simp only [validateLoop, hf, if_neg ha, if_neg hs] at h2 ⊢
          rcases List.mem_cons.mp h2 with rfl | h3
          · rw [itemProblem_price] at hprob
            simp [itemProblem, hf, ha, hs] at hprob
          · exact ih it2 h3 hprob

theorem validateLoop_errors_nil (db : ProductDB) (items : List CartItem)
    (h : ∀ it ∈ items, itemProblem db it = false) :
    (validateLoop db items).1 = [] := by
  induction items with
  | nil => rfl
  | cons it rest ih =>
    have hit := h it (List.mem_cons_self it rest)
    have hrest := ih (fun x hx => h x (List.mem_cons_of_mem it hx))
    cases hf : findProduct db it.product with
    | none => simp [itemProblem, hf] at hit
    | some p =>
      by_cases ha : p.isActive = false
      · simp [itemProblem, hf, ha] at hit
      · by_cases hs : p.stock < (it.quantity : ℤ)
        · simp [itemProblem, hf, ha, hs] at hit
        · simp only [validateLoop, hf, if_neg ha, if_neg hs]
          exact hrest

theorem validateLoop_errors_ne_nil (db : ProductDB) (items : List CartItem)
    (it : CartItem) (hmem : it ∈ items) (hprob : itemProblem db it = true) :
    (validateLoop db items).1 ≠ [] := by
  induction items with
  | nil => cases hmem
  | cons j rest ih =>
    cases hf : findProduct db j.product with
    | none => simp [validateLoop, hf]
    | some p =>
      by_cases ha : p.isActive = false
      · simp [validateLoop, hf, ha]
      · by_cases hs : p.stock < (j.quantity : ℤ)
        · simp [validateLoop, hf, ha, hs]
        · simp only [validateLoop, hf, if_neg ha, if_neg hs]
          rcases List.mem_cons.mp hmem with rfl | h3
          · simp [itemProblem, hf, ha, hs] at hprob
          · exact ih h3

theorem getCart_warnings_nil (db : ProductDB) (c : Cart)
    (hok : ∀ it ∈ c.items, itemProblem db it = false) :
    (getCart db c).1.warnings = [] := by
  have hnil : (validateLoop db c.items).1 = [] := validateLoop_errors_nil db c.items hok
  simp [getCart, validateItemsRun, hnil]

/-- Claim C10: reading the cart is not read-only.  Whenever the cart holds
an item whose product is missing, inactive, or short on stock, `getCart`
removes every such item, persists the pruned cart, and returns the pruned
items with a non-empty warnings list; a second read of the persisted cart
returns no warnings, so the two consecutive responses differ. -/
theorem claim10_getcart_prunes (db : ProductDB) (c : Cart)
    (h : ∃ it ∈ c.items, itemProblem db it = true) :
    (getCart db c).1.warnings ≠ []
    ∧ (getCart db c).1.items = (getCart db c).2.items
    ∧ (∀ it ∈ (getCart db c).2.items, itemProblem db it = false)
    ∧ (getCart db (getCart db c).2).1.warnings = []
    ∧ (getCart db c).1 ≠ (getCart db (getCart db c).2).1 := by
  obtain ⟨it0, hmem0, hprob0⟩ := h
  have hne : (validateLoop db c.items).1 ≠ [] :=
    validateLoop_errors_ne_nil db c.items it0 hmem0 hprob0
  have hemp : (validateLoop db c.items).1.isEmpty = false := by
    rcases hl : (validateLoop db c.items).1 with - | ⟨a, l⟩
    · exact absurd hl hne
    · rfl
  have hw1 : (getCart db c).1.warnings = (validateLoop db c.items).1 := by
    simp only [getCart, validateItemsRun, hemp, Bool.false_eq_true, if_false]
  have hi1 : (getCart db c).1.items = (getCart db c).2.items := by
    simp only [getCart, validateItemsRun, hemp, Bool.false_eq_true, if_false]
  have hi2 : (getCart db c).2.items = (validateLoop db c.items).2.filter
      (fun it => !((validateLoop db c.items).1.contains it.product)) := by
    simp only [getCart, validateItemsRun, hemp, Bool.false_eq_true, if_false, Cart.recompute]
  have hclean : ∀ it ∈ (getCart db c).2.items, itemProblem db it = false := by
    rw [hi2]
    intro it hit
    simp only [List.mem_filter] at hit
    obtain ⟨hin, hkeep⟩ := hit
    by_cases hp : itemProblem db it = true
    · have hmem := validateLoop_out_mem db c.items it hin hp
      have hct : (validateLoop db c.items).1.contains it.product = true :=
        List.elem_eq_true_of_mem hmem
      rw [hct] at hkeep
      exact absurd hkeep (by simp)
    · exact Bool.not_eq_true _ |>.mp hp
  refine ⟨?_, hi1, hclean, ?_, ?_⟩
  · rw [hw1]; exact hne
  · exact getCart_warnings_nil db (getCart db c).2 hclean
  · intro heq
    have hw : (getCart db c).1.warnings = (getCart db (getCart db c).2).1.warnings := by
      rw [heq]
    rw [getCart_warnings_nil db (getCart db c).2 hclean, hw1] at hw
    exact hne hw

/-- Claim C10 witness: on the concrete cart whose first item is out of
stock, the first read returns a non-empty warnings list. -/
theorem claim10_getcart_prunes_witness :
    (∃ it ∈ cartMix.items, itemProblem dbMix it = true)
    ∧ (getCart dbMix cartMix).1.warnings ≠ [] :=
  ⟨by decide, (claim10_getcart_prunes dbMix cartMix (by decide)).1⟩

end Ecom
